import Mathlib

/-!
Verification of the `currency-data-pages` scripts.

The repository consists of three Python scripts:
* `scripts/update_currency_data.py` — fetch daily EUR-based rates, merge them
  into `currency_rates.json` (year → "MM-DD" → positional rate row), and emit
  `latest.json` and `metadata.json`;
* `scripts/update_and_deploy.py` — a near-duplicate with a slightly different
  on-disk schema (year → "YYYY-MM-DD" → positional rate row);
* `scripts/bootstrap-currency-pages.py` — derive `latest.json` and
  `metadata.json` from an existing dataset file.

Python `dict`s are modelled as association lists with Python's assignment
semantics (replace the value of the first matching key in place, append a new
key at the end), rate values as rationals, and the wall clock, the HTTP
response and on-disk file sizes as explicit parameters.
-/

namespace CurrencyPages

/-- A Python `dict` with `String` keys, as an association list in insertion
order. -/
abbrev DictA (α : Type) : Type := List (String × α)

/-- A stored rate row: one nullable rate per allow-listed currency. -/
abbrev Row : Type := List (Option ℚ)

/-- `d[k]` lookup: value of the first pair whose key is `k`. -/
def lookupA {α : Type} (k : String) : DictA α → Option α
  | [] => none
  | (k2, v) :: rest => if k2 = k then some v else lookupA k rest

/-- `k in d`: membership test. -/
def containsA {α : Type} (k : String) (m : DictA α) : Bool :=
  (lookupA k m).isSome

/-- `d[k] = v` assignment: replace the first pair keyed `k` in place, or
append `(k, v)` if the key is absent. -/
def insertA {α : Type} (k : String) (v : α) : DictA α → DictA α
  | [] => [(k, v)]
  | (k2, v2) :: rest =>
      if k2 = k then (k, v) :: rest else (k2, v2) :: insertA k v rest

/-- `d[k].mutate` : apply `f` to the value of the first pair keyed `k`
(no-op when the key is absent). Models in-place mutation of a nested dict. -/
def modifyA {α : Type} (k : String) (f : α → α) : DictA α → DictA α
  | [] => []
  | (k2, v2) :: rest =>
      if k2 = k then (k2, f v2) :: rest else (k2, v2) :: modifyA k f rest

/-- `d.keys()`. -/
def keysA {α : Type} (m : DictA α) : List String :=
  m.map Prod.fst

/-- Python `max(iterable)` over strings: left fold keeping the first maximal
element, `none` on the empty list (where Python raises `ValueError`).
Python compares strings lexicographically by code point, modelled as the
lexicographic order on the character lists (the order underlying
`String.lt`). -/
def maxKeyA : List String → Option String
  | [] => none
  | k :: ks => some (ks.foldl (fun a b => if a.data < b.data then b else a) k)

@[simp] theorem lookupA_nil {α : Type} (k : String) :
    lookupA (α := α) k [] = none := rfl

@[simp] theorem lookupA_cons {α : Type} (k k2 : String) (v : α) (rest : DictA α) :
    lookupA k ((k2, v) :: rest)
      = if k2 = k then some v else lookupA k rest := rfl

@[simp] theorem insertA_nil {α : Type} (k : String) (v : α) :
    insertA k v [] = [(k, v)] := rfl

@[simp] theorem insertA_cons {α : Type} (k k2 : String) (v v2 : α) (rest : DictA α) :
    insertA k v ((k2, v2) :: rest)
      = if k2 = k then (k, v) :: rest else (k2, v2) :: insertA k v rest := rfl

@[simp] theorem modifyA_nil {α : Type} (k : String) (f : α → α) :
    modifyA k f [] = [] := rfl

@[simp] theorem modifyA_cons {α : Type} (k k2 : String) (f : α → α) (v2 : α)
    (rest : DictA α) :
    modifyA k f ((k2, v2) :: rest)
      = if k2 = k then (k2, f v2) :: rest else (k2, v2) :: modifyA k f rest := rfl

/-- Looking up the key just assigned returns the assigned value. -/
theorem lookupA_insertA_self {α : Type} (k : String) (v : α) (m : DictA α) :
    lookupA k (insertA k v m) = some v := by
  induction m with
  | nil => simp
  | cons p rest ih =>
      obtain ⟨k2, v2⟩ := p
      by_cases h : k2 = k <;> simp [h, ih]

/-- Assignment leaves lookups of other keys unchanged. -/
theorem lookupA_insertA_ne {α : Type} {k k2 : String} (v : α) (m : DictA α)
    (h : k2 ≠ k) :
    lookupA k2 (insertA k v m) = lookupA k2 m := by
  induction m with
  | nil => simp [Ne.symm h]
  | cons p rest ih =>
      obtain ⟨k3, v3⟩ := p
      by_cases h3 : k3 = k
      · subst h3
        simp [Ne.symm h]
      · simp only [insertA_cons, if_neg h3, lookupA_cons]
        by_cases h2 : k3 = k2 <;> simp [h2, ih]

/-- Assigning the same key/value twice in a row equals assigning it once. -/
theorem insertA_insertA_self {α : Type} (k : String) (v : α) (m : DictA α) :
    insertA k v (insertA k v m) = insertA k v m := by
  induction m with
  | nil => simp
  | cons p rest ih =>
      obtain ⟨k2, v2⟩ := p
      by_cases h : k2 = k <;> simp [h, ih]

/-- In-place mutation at key `k` maps the lookup at `k` through `f`. -/
theorem lookupA_modifyA_self {α : Type} (k : String) (f : α → α) (m : DictA α) :
    lookupA k (modifyA k f m) = (lookupA k m).map f := by
  induction m with
  | nil => simp
  | cons p rest ih =>
      obtain ⟨k2, v2⟩ := p
      by_cases h : k2 = k <;> simp [h, ih]

/-- In-place mutation at key `k` leaves lookups of other keys unchanged. -/
theorem lookupA_modifyA_ne {α : Type} {k k2 : String} (f : α → α) (m : DictA α)
    (h : k2 ≠ k) :
    lookupA k2 (modifyA k f m) = lookupA k2 m := by
  induction m with
  | nil => simp
  | cons p rest ih =>
      obtain ⟨k3, v3⟩ := p
      by_cases h3 : k3 = k
      · subst h3
        simp [Ne.symm h]
      · simp only [modifyA_cons, if_neg h3, lookupA_cons]
        by_cases h2 : k3 = k2 <;> simp [h2, ih]

/-- Mutating at a key twice with a pointwise-idempotent function equals
mutating once. -/
theorem modifyA_modifyA_self {α : Type} (k : String) (f : α → α) (m : DictA α)
    (hf : ∀ v, f (f v) = f v) :
    modifyA k f (modifyA k f m) = modifyA k f m := by
  induction m with
  | nil => simp
  | cons p rest ih =>
      obtain ⟨k2, v2⟩ := p
      by_cases h : k2 = k <;> simp [h, ih, hf]

/-- Mutation never changes the key set or the bucket count. -/
theorem keysA_modifyA {α : Type} (k : String) (f : α → α) (m : DictA α) :
    keysA (modifyA k f m) = keysA m := by
  induction m with
  | nil => rfl
  | cons p rest ih =>
      obtain ⟨k2, v2⟩ := p
      by_cases h : k2 = k
      · simp [keysA, h]
      · simp only [modifyA_cons, if_neg h, keysA, List.map_cons]
        simpa [keysA] using ih

/-- Membership is preserved by mutation. -/
theorem containsA_modifyA {α : Type} (k k2 : String) (f : α → α) (m : DictA α) :
    containsA k2 (modifyA k f m) = containsA k2 m := by
  by_cases h : k2 = k
  · subst h
    simp [containsA, lookupA_modifyA_self, Option.isSome_map]
  · simp [containsA, lookupA_modifyA_ne f m h]

/-- The key just assigned is present. -/
theorem containsA_insertA_self {α : Type} (k : String) (v : α) (m : DictA α) :
    containsA k (insertA k v m) = true := by
  simp [containsA, lookupA_insertA_self]

/-- A present key has a lookup value. -/
theorem containsA_iff_lookupA {α : Type} (k : String) (m : DictA α) :
    containsA k m = true ↔ ∃ v, lookupA k m = some v := by
  simp [containsA, Option.isSome_iff_exists]

/-- The left fold underlying Python `max` stays inside the list. -/
theorem foldl_max_mem (ks : List String) (k : String) :
    ks.foldl (fun a b => if a.data < b.data then b else a) k ∈ k :: ks := by
  induction ks generalizing k with
  | nil => simp
  | cons b bs ih =>
      simp only [List.foldl_cons]
      by_cases hkb : k.data < b.data
      · simp only [if_pos hkb]
        have h := ih b
        simp only [List.mem_cons] at h ⊢
        tauto
      · simp only [if_neg hkb]
        have h := ih k
        simp only [List.mem_cons] at h ⊢
        tauto

/-- The result of Python `max` over a nonempty list is an element of it. -/
theorem maxKeyA_mem {l : List String} {m : String} (h : maxKeyA l = some m) :
    m ∈ l := by
  match l with
  | [] => simp [maxKeyA] at h
  | k :: ks =>
      simp only [maxKeyA, Option.some.injEq] at h
      subst h
      exact foldl_max_mem ks k

/-- A key in `keysA` has a lookup value. -/
theorem lookupA_isSome_of_mem_keysA {α : Type} {k : String} {m : DictA α}
    (h : k ∈ keysA m) : ∃ v, lookupA k m = some v := by
  induction m with
  | nil => simp [keysA] at h
  | cons p rest ih =>
      obtain ⟨k2, v2⟩ := p
      by_cases hk : k2 = k
      · exact ⟨v2, by simp [hk]⟩
      · simp only [keysA, List.map_cons, List.mem_cons] at h
        rcases h with h | h
        · exact absurd h.symm hk
        · obtain ⟨v, hv⟩ := ih h
          exact ⟨v, by simp [hk, hv]⟩

/-- Python truthiness of an `Optional[Dict]`: `None` and the empty dict are
falsy, a nonempty dict is truthy (the `if latest_rates:` guard). -/
def truthy {α : Type} : Option (DictA α) → Bool
  | none => false
  | some m => !m.isEmpty

/-- The fixed allow-list `TARGET_CURRENCIES`, identical in
`update_currency_data.py` and `update_and_deploy.py`. -/
def TARGET_CURRENCIES : List String :=
  ["AUD", "CAD", "CHF", "CZK", "DKK", "GBP", "HKD", "HUF", "JPY", "KRW",
   "NOK", "NZD", "PLN", "SEK", "SGD", "USD", "ZAR", "TRY", "IDR", "MYR",
   "PHP", "THB", "RON", "MXN", "CNY", "BRL", "INR", "ILS", "BGN"]

/-- `round(q, 2)`: two-decimal rounding with ties to even, as Python's
`round` (applied to the file-size statistics only). -/
def round2 (q : ℚ) : ℚ :=
  let x : ℚ := q * 100
  let f : ℤ := ⌊x⌋
  if x - f < 1 / 2 then (f : ℚ) / 100
  else if x - f > 1 / 2 then ((f : ℚ) + 1) / 100
  else if f % 2 = 0 then (f : ℚ) / 100 else ((f : ℚ) + 1) / 100

/-- The shape of `latest.json`, shared by all three scripts. -/
structure LatestJson where
  date : String
  base_currency : String
  rates : DictA ℚ
  last_updated : String
  deriving Repr, DecidableEq

/-! ### `scripts/update_currency_data.py`

Schema variant: `rates_by_year` maps a year key to a dict keyed by the
`MM-DD` month-day suffix of the date. The module-level global
`TARGET_CURRENCIES` appears as the explicit parameter `targets`; the wall
clock appears as the parameters `today` (`strftime('%Y-%m-%d')`),
`current_year` (`str(datetime.now().year)`) and `nowIso` (`isoformat()`). -/

namespace UCD

/-- The `metadata` sub-dict of `currency_rates.json`. `earliest_date` and
`latest_date` are optional because a loaded legacy file may lack them
(the script reads `earliest_date` with `.get(…, today)`). -/
structure MetaD where
  base_currency : String
  currencies : List String
  data_source : String
  last_updated : String
  total_records : Nat
  earliest_date : Option String
  latest_date : Option String
  deriving Repr, DecidableEq

/-- The persisted `currency_rates.json` document. -/
structure DataFile where
  metadata : MetaD
  currencies : List String
  rates_by_year : DictA (DictA Row)
  deriving Repr, DecidableEq

/-- `load_existing_data`: the parsed existing file if present, else the
fresh empty structure. -/
def load_existing_data (targets : List String) (existing : Option DataFile)
    (nowIso todayStr : String) : DataFile :=
  match existing with
  | some d => d
  | none =>
      { metadata :=
          { base_currency := "EUR"
            currencies := targets
            data_source := "European Central Bank via exchangerate-api.com"
            last_updated := nowIso
            total_records := 0
            earliest_date := some todayStr
            latest_date := some todayStr }
        currencies := targets
        rates_by_year := [] }

/-- Lines 94–112 of `update_currency_data.py`: ensure the year bucket,
assign today's positional rate row under the `MM-DD` key, and rewrite the
metadata (`last_updated`, `latest_date`, recomputed `total_records`). -/
def merge_daily_rates (targets : List String) (data : DataFile)
    (latest_rates : DictA ℚ) (today current_year nowIso : String) : DataFile :=
  let by0 :=
    if containsA current_year data.rates_by_year then data.rates_by_year
    else insertA current_year [] data.rates_by_year
  let month_day := today.drop 5
  let rates_array : Row := targets.map (fun c => lookupA c latest_rates)
  let by1 := modifyA current_year (insertA month_day rates_array) by0
  { data with
    rates_by_year := by1
    metadata := { data.metadata with
      last_updated := nowIso
      latest_date := some today
      total_records := (by1.map (fun p => p.2.length)).sum } }

/-- The `latest.json` document built from today's fetched rates. -/
def latest_json (today : String) (latest_rates : DictA ℚ) (nowIso : String) :
    LatestJson :=
  { date := today
    base_currency := "EUR"
    rates := latest_rates
    last_updated := nowIso }

/-- The `metadata.json` document of `update_currency_data.py`. -/
structure MetadataJson where
  base_currency : String
  supported_currencies : List String
  total_currencies : Nat
  data_source : String
  last_updated : String
  total_records : Nat
  latest_date : String
  date_range_start : String
  date_range_end : String
  full_data_mb : ℚ
  latest_kb : ℚ
  deriving Repr, DecidableEq

/-- Lines 134–150: `metadata.json` built from the already-merged dataset and
the two files' on-disk byte sizes. -/
def metadata_json (targets : List String) (data : DataFile)
    (today nowIso : String) (currency_file_size latest_file_size : ℕ) :
    MetadataJson :=
  { base_currency := "EUR"
    supported_currencies := "EUR" :: targets
    total_currencies := targets.length + 1
    data_source := "European Central Bank via exchangerate-api.com"
    last_updated := nowIso
    total_records := data.metadata.total_records
    latest_date := today
    date_range_start := data.metadata.earliest_date.getD today
    date_range_end := today
    full_data_mb := round2 ((currency_file_size : ℚ) / 1024 / 1024)
    latest_kb := round2 ((latest_file_size : ℚ) / 1024) }

/-- Outcome of one run: the three files written (or `none` when nothing was
written) and the process exit code. -/
structure RunResult where
  written : Option (DataFile × LatestJson × MetadataJson)
  exitCode : Nat
  deriving Repr, DecidableEq

/-- `update_currency_data` (lines 78–164) followed by the `__main__` exit:
on a truthy fetch result merge and write the three documents and exit 0;
otherwise write nothing and `exit(1)`. -/
def update_currency_data (targets : List String) (existing : Option DataFile)
    (latest_rates : Option (DictA ℚ)) (today current_year nowIso : String)
    (currency_file_size latest_file_size : ℕ) : RunResult :=
  let data := load_existing_data targets existing nowIso today
  if truthy latest_rates then
    let rates := latest_rates.getD []
    let data1 := merge_daily_rates targets data rates today current_year nowIso
    { written := some (data1, latest_json today rates nowIso,
        metadata_json targets data1 today nowIso currency_file_size
          latest_file_size)
      exitCode := 0 }
  else
    { written := none, exitCode := 1 }

end UCD

/-! ### `scripts/update_and_deploy.py`

Near-duplicate of the above with a different schema: the historical dict is
called `data` and day rows are keyed by the full `YYYY-MM-DD` date; the
dataset metadata has no `earliest_date`/`latest_date` fields and the merge
updates only `last_updated` and `total_records`. -/

namespace UAD

/-- The `metadata` sub-dict of this variant's `currency_rates.json`. -/
structure MetaD where
  base_currency : String
  currencies : List String
  data_source : String
  last_updated : String
  total_records : Nat
  deriving Repr, DecidableEq

/-- The persisted `currency_rates.json` document of this variant. -/
structure DataFile where
  metadata : MetaD
  data : DictA (DictA Row)
  deriving Repr, DecidableEq

/-- `load_existing_data`: the parsed existing file if present, else the
fresh empty structure. -/
def load_existing_data (targets : List String) (existing : Option DataFile)
    (nowIso : String) : DataFile :=
  match existing with
  | some d => d
  | none =>
      { metadata :=
          { base_currency := "EUR"
            currencies := targets
            data_source := "European Central Bank via exchangerate-api.com"
            last_updated := nowIso
            total_records := 0 }
        data := [] }

/-- Lines 105–119 of `update_and_deploy.py`: ensure the year bucket, assign
today's positional rate row under the full-date key, and rewrite
`last_updated` and the recomputed `total_records`. -/
def merge_daily_rates (targets : List String) (data : DataFile)
    (latest_rates : DictA ℚ) (today current_year nowIso : String) : DataFile :=
  let by0 :=
    if containsA current_year data.data then data.data
    else insertA current_year [] data.data
  let rates_array : Row := targets.map (fun c => lookupA c latest_rates)
  let by1 := modifyA current_year (insertA today rates_array) by0
  { data with
    data := by1
    metadata := { data.metadata with
      last_updated := nowIso
      total_records := (by1.map (fun p => p.2.length)).sum } }

/-- The `metadata.json` document of `update_and_deploy.py` (no date range). -/
structure MetadataJson where
  base_currency : String
  supported_currencies : List String
  total_currencies : Nat
  data_source : String
  last_updated : String
  total_records : Nat
  latest_date : String
  full_data_mb : ℚ
  latest_kb : ℚ
  deriving Repr, DecidableEq

/-- Lines 141–153: `metadata.json` built from the already-merged dataset and
the two files' on-disk byte sizes. -/
def metadata_json (targets : List String) (data : DataFile)
    (today nowIso : String) (currency_file_size latest_file_size : ℕ) :
    MetadataJson :=
  { base_currency := "EUR"
    supported_currencies := "EUR" :: targets
    total_currencies := targets.length + 1
    data_source := "European Central Bank via exchangerate-api.com"
    last_updated := nowIso
    total_records := data.metadata.total_records
    latest_date := today
    full_data_mb := round2 ((currency_file_size : ℚ) / 1024 / 1024)
    latest_kb := round2 ((latest_file_size : ℚ) / 1024) }

/-- Outcome of one run (files written, exit code). -/
structure RunResult where
  written : Option (DataFile × LatestJson × MetadataJson)
  exitCode : Nat
  deriving Repr, DecidableEq

/-- `update_currency_data` of `update_and_deploy.py` (lines 89–166) followed
by the `__main__` exit. -/
def update_currency_data (targets : List String) (existing : Option DataFile)
    (latest_rates : Option (DictA ℚ)) (today current_year nowIso : String)
    (currency_file_size latest_file_size : ℕ) : RunResult :=
  let data := load_existing_data targets existing nowIso
  if truthy latest_rates then
    let rates := latest_rates.getD []
    let data1 := merge_daily_rates targets data rates today current_year nowIso
    { written := some (data1, UCD.latest_json today rates nowIso,
        metadata_json targets data1 today nowIso currency_file_size
          latest_file_size)
      exitCode := 0 }
  else
    { written := none, exitCode := 1 }

end UAD

/-! ### The rate fetcher

`fetch_latest_rates_from_api` (identical in both update scripts) wraps the
HTTP call in a `try`/`except Exception` that returns `None`. The outside
world is modelled by `ApiOutcome`: either some exception was raised during
`requests.get` / `raise_for_status` / `response.json()` (network error,
timeout, non-2xx status, unparsable body), or a JSON document was obtained
whose optional `rates` field is a mapping from currency code to rate. -/

/-- The observable outcome of the HTTP request. -/
inductive ApiOutcome where
  /-- Any exception raised while fetching or parsing. -/
  | error : ApiOutcome
  /-- A parsed JSON document; `ratesField` is its `rates` entry, if any
  (`data.get('rates', {})` substitutes the empty dict when it is absent). -/
  | ok (ratesField : Option (DictA ℚ)) : ApiOutcome
  deriving Repr, DecidableEq

/-- Lines 31–53 of `update_currency_data.py` (34–56 of
`update_and_deploy.py`): on an exception return `None`; otherwise filter the
response's `rates` to the allow-list, keeping allow-list order. -/
def fetch_latest_rates_from_api (targets : List String) (resp : ApiOutcome) :
    Option (DictA ℚ) :=
  match resp with
  | .error => none
  | .ok ratesField =>
      let rates := ratesField.getD []
      some (targets.filterMap (fun c => (lookupA c rates).map (fun v => (c, v))))

/-! ### `scripts/bootstrap-currency-pages.py`

Reads an existing dataset in the `update_and_deploy.py` schema (`data` keyed
year → full date → positional row, `metadata.currencies`,
`metadata.total_records`) and derives `latest.json` and `metadata.json`.
Python's `max()` over the keys of an empty dict raises `ValueError`; those
paths surface as `none`. -/

namespace BCP

/-- Lines 41–44: the name-keyed `latest_rates` dict built from the positional
row, skipping positions past the row's end and `None` holes
(`if i < len(latest_rates_array) and latest_rates_array[i] is not None`). -/
def latest_rates_of (currencies : List String) (arr : Row) : DictA ℚ :=
  currencies.enum.filterMap (fun p =>
    if h : p.1 < arr.length then
      match arr.get ⟨p.1, h⟩ with
      | some v => some (p.2, v)
      | none => none
    else none)

/-- Lines 35–44: `latest_year = max(data['data'].keys())`,
`latest_date = max(data['data'][latest_year].keys())`, the row at that slot,
and the name-keyed rebuild. Returns the latest date together with the
name-keyed rates. -/
def bootstrap_latest (byData : DictA (DictA Row)) (currencies : List String) :
    Option (String × DictA ℚ) :=
  match maxKeyA (keysA byData) with
  | none => none
  | some latest_year =>
      match lookupA latest_year byData with
      | none => none
      | some year_bucket =>
          match maxKeyA (keysA year_bucket) with
          | none => none
          | some latest_date =>
              match lookupA latest_date year_bucket with
              | none => none
              | some arr => some (latest_date, latest_rates_of currencies arr)

/-- The `metadata.json` document of the bootstrap script (lines 65–77). -/
structure MetadataJson where
  base_currency : String
  supported_currencies : List String
  total_currencies : Nat
  data_source : String
  last_updated : String
  total_records : Nat
  latest_date : String
  full_data_mb : ℚ
  latest_kb : ℚ
  deriving Repr, DecidableEq

/-- Lines 65–77: `metadata.json` built from the loaded dataset's
`metadata.currencies` and `metadata.total_records`, the extracted latest
date, and the two files' byte sizes. -/
def metadata_json (currencies : List String) (total_records : Nat)
    (latest_date nowIso : String) (full_size latest_size : ℕ) : MetadataJson :=
  { base_currency := "EUR"
    supported_currencies := "EUR" :: currencies
    total_currencies := currencies.length + 1
    data_source := "European Central Bank via exchangerate-api.com"
    last_updated := nowIso
    total_records := total_records
    latest_date := latest_date
    full_data_mb := round2 ((full_size : ℚ) / 1024 / 1024)
    latest_kb := round2 ((latest_size : ℚ) / 1024) }

end BCP

/-! ### Derived accessors and the shared bucket-assignment pattern -/

/-- The source's record count: `sum(len(year_data) for year_data in …)`. -/
def totalRecordsA (byData : DictA (DictA Row)) : ℕ :=
  (byData.map (fun p => p.2.length)).sum

/-- Spec-side recomputation: the number of day-keys present in each year
bucket, summed over all years. -/
def totalRecordsSpec (byData : DictA (DictA Row)) : ℕ :=
  (byData.map (fun p => (keysA p.2).length)).sum

/-- The row stored under year `y`, day `k` (if any). -/
def dayRow (byData : DictA (DictA Row)) (y k : String) : Option Row :=
  (lookupA y byData).bind (lookupA k)

/-- The ensure-year-bucket-then-assign-row pattern shared by both merge
routines (`if current_year not in …: … = {}` followed by
`…[current_year][dayKey] = rates_array`). -/
def bucketAssign (cy dayKey : String) (row : Row)
    (byData : DictA (DictA Row)) : DictA (DictA Row) :=
  modifyA cy (insertA dayKey row)
    (if containsA cy byData then byData else insertA cy [] byData)

/-- The ensured year bucket always holds the assigned key. -/
theorem containsA_bucketAssign_self (cy k : String) (row : Row)
    (m : DictA (DictA Row)) :
    containsA cy (bucketAssign cy k row m) = true := by
  unfold bucketAssign
  rw [containsA_modifyA]
  by_cases h : containsA cy m
  · simp [h]
  · simp [h, containsA_insertA_self]

/-- Assigning the same `(year, day, row)` twice equals assigning it once. -/
theorem bucketAssign_bucketAssign (cy k : String) (row : Row)
    (m : DictA (DictA Row)) :
    bucketAssign cy k row (bucketAssign cy k row m) = bucketAssign cy k row m := by
  conv_lhs => rw [bucketAssign]
  rw [if_pos (containsA_bucketAssign_self cy k row m)]
  unfold bucketAssign
  exact modifyA_modifyA_self _ _ _ (insertA_insertA_self k row)

/-- After assignment, the year bucket is the old bucket (or the fresh empty
one) with the row stored under the day key. -/
theorem lookupA_bucketAssign_self (cy k : String) (row : Row)
    (m : DictA (DictA Row)) :
    lookupA cy (bucketAssign cy k row m)
      = some (insertA k row ((lookupA cy m).getD [])) := by
  unfold bucketAssign
  rw [lookupA_modifyA_self]
  by_cases h : containsA cy m
  · obtain ⟨b, hb⟩ := (containsA_iff_lookupA cy m).mp h
    simp [h, hb]
  · have hb : lookupA cy m = none := by
      by_contra hc
      exact h ((containsA_iff_lookupA cy m).mpr
        (Option.ne_none_iff_exists'.mp hc))
    simp [h, hb, lookupA_insertA_self]

/-- Assignment leaves every other year bucket untouched. -/
theorem lookupA_bucketAssign_ne (cy k : String) (row : Row)
    (m : DictA (DictA Row)) {y : String} (hy : y ≠ cy) :
    lookupA y (bucketAssign cy k row m) = lookupA y m := by
  unfold bucketAssign
  rw [lookupA_modifyA_ne _ _ hy]
  by_cases h : containsA cy m
  · simp [h]
  · simp [h, lookupA_insertA_ne _ _ hy]

/-- The assigned slot holds exactly the assigned row. -/
theorem dayRow_bucketAssign_self (cy k : String) (row : Row)
    (m : DictA (DictA Row)) :
    dayRow (bucketAssign cy k row m) cy k = some row := by
  unfold dayRow
  rw [lookupA_bucketAssign_self]
  simp [lookupA_insertA_self]

/-- Assignment leaves every other day slot of the same year untouched. -/
theorem dayRow_bucketAssign_ne (cy k : String) (row : Row)
    (m : DictA (DictA Row)) {k2 : String} (hk : k2 ≠ k) :
    dayRow (bucketAssign cy k row m) cy k2 = dayRow m cy k2 := by
  unfold dayRow
  rw [lookupA_bucketAssign_self]
  cases hm : lookupA cy m with
  | none =>
      simp only [hm, Option.getD_none, Option.some_bind, Option.none_bind]
      rw [lookupA_insertA_ne _ _ hk]
      simp
  | some b =>
      simp only [hm, Option.getD_some, Option.some_bind]
      rw [lookupA_insertA_ne _ _ hk]

/-- `merge_daily_rates` of `update_currency_data.py`, restated through the
named helpers (definitional equality). -/
theorem ucd_merge_daily_rates_eq (targets : List String) (d : UCD.DataFile)
    (latest_rates : DictA ℚ) (today current_year nowIso : String) :
    UCD.merge_daily_rates targets d latest_rates today current_year nowIso
      = { metadata := { d.metadata with
            last_updated := nowIso
            latest_date := some today
            total_records := totalRecordsA (bucketAssign current_year
              (today.drop 5) (targets.map (fun c => lookupA c latest_rates))
              d.rates_by_year) }
          currencies := d.currencies
          rates_by_year := bucketAssign current_year (today.drop 5)
            (targets.map (fun c => lookupA c latest_rates))
            d.rates_by_year } := rfl

/-- `merge_daily_rates` of `update_and_deploy.py`, restated through the
named helpers (definitional equality). -/
theorem uad_merge_daily_rates_eq (targets : List String) (d : UAD.DataFile)
    (latest_rates : DictA ℚ) (today current_year nowIso : String) :
    UAD.merge_daily_rates targets d latest_rates today current_year nowIso
      = { metadata := { d.metadata with
            last_updated := nowIso
            total_records := totalRecordsA (bucketAssign current_year today
              (targets.map (fun c => lookupA c latest_rates)) d.data) }
          data := bucketAssign current_year today
            (targets.map (fun c => lookupA c latest_rates)) d.data } := rfl

/-! ### Claims -/

/-- C1: for every dataset, date, and fetched-rates mapping, running the merge
twice with the same `(date, rates)` (at the same clock reading) yields a
dataset identical to running it once, in both schema variants: the second
merge assigns the same row to the same `(year, day-key)` slot, creates no
duplicate entry, and leaves `total_records` unchanged — the latter two even
when the second run reads a later clock (`nowIso2`). -/
theorem merge_idempotent (targets : List String) (d : UCD.DataFile)
    (d2 : UAD.DataFile) (rates : DictA ℚ)
    (today current_year nowIso nowIso2 : String) :
    UCD.merge_daily_rates targets
        (UCD.merge_daily_rates targets d rates today current_year nowIso)
        rates today current_year nowIso
      = UCD.merge_daily_rates targets d rates today current_year nowIso ∧
    UAD.merge_daily_rates targets
        (UAD.merge_daily_rates targets d2 rates today current_year nowIso)
        rates today current_year nowIso
      = UAD.merge_daily_rates targets d2 rates today current_year nowIso ∧
    (UCD.merge_daily_rates targets
        (UCD.merge_daily_rates targets d rates today current_year nowIso)
        rates today current_year nowIso2).rates_by_year
      = (UCD.merge_daily_rates targets d rates today current_year
          nowIso).rates_by_year ∧
    (UCD.merge_daily_rates targets
        (UCD.merge_daily_rates targets d rates today current_year nowIso)
        rates today current_year nowIso2).metadata.total_records
      = (UCD.merge_daily_rates targets d rates today current_year
          nowIso).metadata.total_records ∧
    (UAD.merge_daily_rates targets
        (UAD.merge_daily_rates targets d2 rates today current_year nowIso)
        rates today current_year nowIso2).data
      = (UAD.merge_daily_rates targets d2 rates today current_year
          nowIso).data ∧
    (UAD.merge_daily_rates targets
        (UAD.merge_daily_rates targets d2 rates today current_year nowIso)
        rates today current_year nowIso2).metadata.total_records
      = (UAD.merge_daily_rates targets d2 rates today current_year
          nowIso).metadata.total_records := by
  refine ⟨?_, ?_, ?_, ?_, ?_, ?_⟩ <;>
    · simp only [ucd_merge_daily_rates_eq, uad_merge_daily_rates_eq]
      simp [bucketAssign_bucketAssign]

/-- C2: after every merge — including the first merge into an empty
dataset — the `total_records` field written into the dataset equals the sum,
over all year buckets, of the number of day-keys present in that bucket; it
is recomputed from the merged structure and does not depend on the counter
carried in the input dataset. -/
theorem total_records_recomputed (targets : List String) (d : UCD.DataFile)
    (d2 : UAD.DataFile) (rates : DictA ℚ) (today current_year nowIso : String)
    (n : ℕ) :
    (UCD.merge_daily_rates targets d rates today current_year
        nowIso).metadata.total_records
      = totalRecordsSpec (UCD.merge_daily_rates targets d rates today
          current_year nowIso).rates_by_year ∧
    (UAD.merge_daily_rates targets d2 rates today current_year
        nowIso).metadata.total_records
      = totalRecordsSpec (UAD.merge_daily_rates targets d2 rates today
          current_year nowIso).data ∧
    (UCD.merge_daily_rates targets
        { d with metadata := { d.metadata with total_records := n } }
        rates today current_year nowIso).metadata.total_records
      = (UCD.merge_daily_rates targets d rates today current_year
          nowIso).metadata.total_records ∧
    (UAD.merge_daily_rates targets
        { d2 with metadata := { d2.metadata with total_records := n } }
        rates today current_year nowIso).metadata.total_records
      = (UAD.merge_daily_rates targets d2 rates today current_year
          nowIso).metadata.total_records := by
  refine ⟨?_, ?_, rfl, rfl⟩
  · rw [ucd_merge_daily_rates_eq]
    simp [totalRecordsA, totalRecordsSpec, keysA]
  · rw [uad_merge_daily_rates_eq]
    simp [totalRecordsA, totalRecordsSpec, keysA]

/-- C3: for every fetched-rates mapping (in particular every subset of the
allow-list), the row the merge stores under today's slot has length exactly
the allow-list's length, and position `i` holds the fetched rate of the
`i`-th allow-listed currency if present, else a null hole at that same
position — in both schema variants. -/
theorem row_positional_alignment (targets : List String) (rates : DictA ℚ)
    (d : UCD.DataFile) (d2 : UAD.DataFile) (today current_year nowIso : String) :
    dayRow (UCD.merge_daily_rates targets d rates today current_year
        nowIso).rates_by_year current_year (today.drop 5)
      = some (targets.map (fun c => lookupA c rates)) ∧
    dayRow (UAD.merge_daily_rates targets d2 rates today current_year
        nowIso).data current_year today
      = some (targets.map (fun c => lookupA c rates)) ∧
    (targets.map (fun c => lookupA c rates)).length = targets.length ∧
    ∀ (i : ℕ) (c : String), targets[i]? = some c →
      (targets.map (fun c => lookupA c rates))[i]? = some (lookupA c rates) := by
  refine ⟨?_, ?_, List.length_map _ _, ?_⟩
  · rw [ucd_merge_daily_rates_eq]
    exact dayRow_bucketAssign_self _ _ _ _
  · rw [uad_merge_daily_rates_eq]
    exact dayRow_bucketAssign_self _ _ _ _
  · intro i c hc
    rw [List.getElem?_map, hc]
    rfl

/-- C3 witness: the alignment theorem at the end-to-end scenario's inputs;
the third allow-listed currency (JPY), absent from the fetch, yields a null
hole at position 2. -/
theorem row_positional_alignment_witness :
    dayRow (UCD.merge_daily_rates ["USD", "GBP", "JPY"]
        (UCD.load_existing_data ["USD", "GBP", "JPY"] none "T" "2024-03-15")
        [("USD", (1.08 : ℚ)), ("GBP", 0.86)] "2024-03-15" "2024"
        "T").rates_by_year "2024" "03-15"
      = some [some 1.08, some 0.86, none] ∧
    ((["USD", "GBP", "JPY"].map
        (fun c => lookupA c [("USD", (1.08 : ℚ)), ("GBP", 0.86)]))[2]?
      = some none) := by
  have h := row_positional_alignment ["USD", "GBP", "JPY"]
    [("USD", (1.08 : ℚ)), ("GBP", 0.86)]
    (UCD.load_existing_data ["USD", "GBP", "JPY"] none "T" "2024-03-15")
    (UAD.load_existing_data ["USD", "GBP", "JPY"] none "T")
    "2024-03-15" "2024" "T"
  exact ⟨h.1, h.2.2.2 2 "JPY" rfl⟩

/-- C4: starting from an empty dataset, merging the successful fetch result
`{USD: 1.08, GBP: 0.86}` against the allow-list `[USD, GBP, JPY]` for date
`2024-03-15` produces `rates_by_year["2024"]["03-15"] = [1.08, 0.86, null]`,
`total_records = 1`, and a latest snapshot for date `2024-03-15` with rates
`{USD: 1.08, GBP: 0.86}` and JPY absent. -/
theorem end_to_end_scenario :
    ((UCD.update_currency_data ["USD", "GBP", "JPY"] none
        (some [("USD", 1.08), ("GBP", 0.86)]) "2024-03-15" "2024" "T"
        0 0).written).map
        (fun w => (dayRow w.1.rates_by_year "2024" "03-15",
          w.1.metadata.total_records, w.2.1.date, w.2.1.rates,
          lookupA "JPY" w.2.1.rates))
      = some (some [some 1.08, some 0.86, none], 1, "2024-03-15",
          [("USD", 1.08), ("GBP", 0.86)], none) := by
  rfl

/-- C5: if the fetch step yields no rates (the explicit no-result value or an
empty mapping), neither script writes any of the three persisted files — the
dataset file is untouched — and the process exits non-zero; when the fetch is
truthy, the update succeeds with exit code 0 and the files are written. -/
theorem no_write_on_failure (targets : List String)
    (existing : Option UCD.DataFile) (existing2 : Option UAD.DataFile)
    (fetched : Option (DictA ℚ)) (today current_year nowIso : String)
    (fs ls : ℕ) :
    (fetched = none ∨ fetched = some [] →
      (UCD.update_currency_data targets existing fetched today current_year
          nowIso fs ls).written = none ∧
      (UCD.update_currency_data targets existing fetched today current_year
          nowIso fs ls).exitCode ≠ 0 ∧
      (UAD.update_currency_data targets existing2 fetched today current_year
          nowIso fs ls).written = none ∧
      (UAD.update_currency_data targets existing2 fetched today current_year
          nowIso fs ls).exitCode ≠ 0) ∧
    (truthy fetched = true →
      (UCD.update_currency_data targets existing fetched today current_year
          nowIso fs ls).exitCode = 0 ∧
      (UCD.update_currency_data targets existing fetched today current_year
          nowIso fs ls).written.isSome = true ∧
      (UAD.update_currency_data targets existing2 fetched today current_year
          nowIso fs ls).exitCode = 0 ∧
      (UAD.update_currency_data targets existing2 fetched today current_year
          nowIso fs ls).written.isSome = true) := by
  constructor
  · rintro (rfl | rfl) <;>
      simp [UCD.update_currency_data, UAD.update_currency_data, truthy,
        List.isEmpty]
  · intro ht
    simp [UCD.update_currency_data, UAD.update_currency_data, ht]

/-- C5 witness: a failing fetch (`None`) writes nothing and exits 1; a
truthy fetch exits 0 with the files written. -/
theorem no_write_on_failure_witness :
    ((UCD.update_currency_data TARGET_CURRENCIES none none "2024-03-15"
        "2024" "T" 0 0).written = none ∧
      (UCD.update_currency_data TARGET_CURRENCIES none none "2024-03-15"
        "2024" "T" 0 0).exitCode ≠ 0) ∧
    (UCD.update_currency_data TARGET_CURRENCIES none
        (some [("USD", (1 : ℚ))]) "2024-03-15" "2024" "T" 0 0).exitCode = 0 := by
  have h1 := no_write_on_failure TARGET_CURRENCIES none none none
    "2024-03-15" "2024" "T" 0 0
  have h2 := no_write_on_failure TARGET_CURRENCIES none none
    (some [("USD", (1 : ℚ))]) "2024-03-15" "2024" "T" 0 0
  exact ⟨⟨(h1.1 (Or.inl rfl)).1, (h1.1 (Or.inl rfl)).2.1⟩, (h2.2 rfl).1⟩

/-- Looking up a code in the allow-list-filtered response: present codes map
to their response rate, codes outside the allow-list (or absent from the
response) are not in the result. -/
theorem lookupA_fetch_filter (targets : List String) (rates : DictA ℚ)
    (c : String) :
    lookupA c (targets.filterMap
        (fun t => (lookupA t rates).map (fun v => (t, v))))
      = if c ∈ targets then lookupA c rates else none := by
  induction targets with
  | nil => simp
  | cons t ts ih =>
      rw [List.filterMap_cons]
      cases h : lookupA t rates with
      | none =>
          simp only [h, Option.map_none']
          rw [ih]
          by_cases htc : t = c
          · subst htc
            simp [h, ite_self]
          · simp [List.mem_cons, Ne.symm htc]
      | some v =>
          simp only [h, Option.map_some']
          by_cases htc : t = c
          · subst htc
            simp [h]
          · simp only [lookupA_cons, if_neg htc]
            rw [ih]
            simp [List.mem_cons, Ne.symm htc]

/-- C6: the rate fetcher returns `None` whenever an exception is raised
(network error, timeout, non-2xx status, unparsable body) and never raises
to its caller; on a parsed response it returns exactly the mapping
restricted to the codes present in both the fixed allow-list and the
response's `rates` field (an absent `rates` field counting as empty). -/
theorem fetch_restriction (targets : List String) :
    fetch_latest_rates_from_api targets .error = none ∧
    ∀ ratesField : Option (DictA ℚ), ∃ m : DictA ℚ,
      fetch_latest_rates_from_api targets (.ok ratesField) = some m ∧
      ∀ c : String,
        lookupA c m
          = if c ∈ targets then lookupA c (ratesField.getD []) else none := by
  refine ⟨rfl, fun ratesField => ⟨_, rfl, fun c => ?_⟩⟩
  exact lookupA_fetch_filter targets (ratesField.getD []) c

/-- Python `max` over the keys of a nonempty dict succeeds. -/
theorem maxKeyA_of_ne_nil {l : List String} (h : l ≠ []) :
    ∃ m, maxKeyA l = some m := by
  cases l with
  | nil => exact absurd rfl h
  | cons k ks => exact ⟨_, rfl⟩

/-- A successful lookup exhibits a member pair. -/
theorem lookupA_mem {α : Type} {k : String} {m : DictA α} {v : α}
    (h : lookupA k m = some v) : (k, v) ∈ m := by
  induction m with
  | nil => simp at h
  | cons p rest ih =>
      obtain ⟨k2, v2⟩ := p
      by_cases hk : k2 = k
      · subst hk
        rw [lookupA_cons, if_pos rfl] at h
        injection h with h
        subst h
        exact List.mem_cons_self _ _
      · rw [lookupA_cons, if_neg hk] at h
        exact List.mem_cons_of_mem _ (ih h)

/-- Membership in the bootstrap's name-keyed rate dict: exactly the in-bounds,
non-null positions of the row, zipped with the currency at the same index. -/
theorem mem_latest_rates_of (currencies : List String) (arr : Row)
    (c : String) (v : ℚ) :
    (c, v) ∈ BCP.latest_rates_of currencies arr ↔
      ∃ i : ℕ, ∃ hc : i < currencies.length, ∃ hr : i < arr.length,
        currencies.get ⟨i, hc⟩ = c ∧ arr.get ⟨i, hr⟩ = some v := by
  unfold BCP.latest_rates_of
  rw [List.mem_filterMap]
  constructor
  · rintro ⟨⟨i, x⟩, hmem, hf⟩
    rw [List.mk_mem_enum_iff_getElem?] at hmem
    have hc : i < currencies.length := by
      by_contra hlt
      rw [List.getElem?_eq_none (le_of_not_lt hlt)] at hmem
      exact Option.noConfusion hmem
    have hx : currencies.get ⟨i, hc⟩ = x := by
      rw [List.getElem?_eq_getElem hc] at hmem
      exact Option.some.inj hmem
    by_cases hr : i < arr.length
    · rw [dif_pos hr] at hf
      cases harr : arr.get ⟨i, hr⟩ with
      | none =>
          rw [harr] at hf
          exact absurd hf (by simp)
      | some w =>
          rw [harr] at hf
          simp only [Option.some.injEq, Prod.mk.injEq] at hf
          obtain ⟨rfl, rfl⟩ := hf
          exact ⟨i, hc, hr, hx, harr⟩
    · rw [dif_neg hr] at hf
      exact absurd hf (by simp)
  · rintro ⟨i, hc, hr, hcur, harr⟩
    refine ⟨(i, c), ?_, ?_⟩
    · rw [List.mk_mem_enum_iff_getElem?, List.getElem?_eq_getElem hc]
      rw [← hcur]
      simp [List.get_eq_getElem]
    · simp only []
      rw [dif_pos hr, harr]

/-- C7: for every dataset whose year map is nonempty with nonempty year
buckets, the bootstrap's latest-snapshot derivation selects the maximum
year-key, then the maximum day-key within that year, and returns exactly
that row's non-null entries zipped to their currency names (null and
out-of-range positions are skipped, not emitted) under that row's date
key. -/
theorem snapshot_correct (byData : DictA (DictA Row))
    (currencies : List String) (h1 : byData ≠ [])
    (h2 : ∀ p ∈ byData, p.2 ≠ ([] : DictA Row)) :
    ∃ (y : String) (bucket : DictA Row) (dk : String) (row : Row),
      maxKeyA (keysA byData) = some y ∧
      lookupA y byData = some bucket ∧
      maxKeyA (keysA bucket) = some dk ∧
      lookupA dk bucket = some row ∧
      BCP.bootstrap_latest byData currencies
        = some (dk, BCP.latest_rates_of currencies row) ∧
      ∀ (c : String) (v : ℚ),
        (c, v) ∈ BCP.latest_rates_of currencies row ↔
          ∃ i : ℕ, ∃ hc : i < currencies.length, ∃ hr : i < row.length,
            currencies.get ⟨i, hc⟩ = c ∧ row.get ⟨i, hr⟩ = some v := by
  have hkeys : keysA byData ≠ [] := by
    cases byData with
    | nil => exact absurd rfl h1
    | cons p rest => simp [keysA]
  obtain ⟨y, hy⟩ := maxKeyA_of_ne_nil hkeys
  obtain ⟨bucket, hb⟩ := lookupA_isSome_of_mem_keysA (maxKeyA_mem hy)
  have hbne : bucket ≠ [] := h2 (y, bucket) (lookupA_mem hb)
  have hbkeys : keysA bucket ≠ [] := by
    cases bucket with
    | nil => exact absurd rfl hbne
    | cons p rest => simp [keysA]
  obtain ⟨dk, hd⟩ := maxKeyA_of_ne_nil hbkeys
  obtain ⟨row, hrow⟩ := lookupA_isSome_of_mem_keysA (maxKeyA_mem hd)
  refine ⟨y, bucket, dk, row, hy, hb, hd, hrow, ?_, ?_⟩
  · simp only [BCP.bootstrap_latest, hy, hb, hd, hrow]
  · intro c v
    exact mem_latest_rates_of currencies row c v

/-- C7 witness: a concrete two-year dataset; the snapshot is derived from
the maximal year `2024` and its maximal date `2024-03-15`, skipping the null
hole for JPY. -/
theorem snapshot_correct_witness :
    BCP.bootstrap_latest
        [("2023", [("2023-12-29", [some (1 : ℚ)])]),
         ("2024", [("2024-03-11", [some 9]),
                   ("2024-03-15", [some 2, some 3, none])])]
        ["USD", "GBP", "JPY"]
      = some ("2024-03-15", [("USD", 2), ("GBP", 3)]) := by
  obtain ⟨y, bucket, dk, row, hy, hb, hd, hrow, heq, hmem⟩ :=
    snapshot_correct
      [("2023", [("2023-12-29", [some (1 : ℚ)])]),
       ("2024", [("2024-03-11", [some 9]),
                 ("2024-03-15", [some 2, some 3, none])])]
      ["USD", "GBP", "JPY"]
      (by simp)
      (by
        intro p hp
        simp only [List.mem_cons, List.not_mem_nil, or_false] at hp
        rcases hp with rfl | rfl <;> simp)
  have hy2 : y = "2024" := by
    have : some y = some "2024" := hy.symm.trans (by rfl)
    injection this
  subst hy2
  have hb2 : bucket
      = [("2024-03-11", [some (9 : ℚ)]),
         ("2024-03-15", [some 2, some 3, none])] := by
    have : some bucket = some [("2024-03-11", [some (9 : ℚ)]),
        ("2024-03-15", [some 2, some 3, none])] := hb.symm.trans (by rfl)
    injection this
  subst hb2
  have hd2 : dk = "2024-03-15" := by
    have : some dk = some "2024-03-15" := hd.symm.trans (by rfl)
    injection this
  subst hd2
  have hrow2 : row = [some (2 : ℚ), some 3, none] := by
    have : some row = some [some (2 : ℚ), some 3, none] :=
      hrow.symm.trans (by rfl)
    injection this
  subst hrow2
  exact heq

/-- C8 counterexample: the bootstrap script builds `supported_currencies` as
`['EUR'] + currencies` without deduplication, so a dataset whose currency
list contains the base currency yields the base currency twice — the claim's
"not duplicated even if the base currency is present in the currency list"
fails on this concrete input. -/
theorem metadata_base_duplicated_counterexample :
    (BCP.metadata_json ["EUR"] 5 "2024-03-15" "T" 0 0).supported_currencies
        = ["EUR", "EUR"] ∧
    ((BCP.metadata_json ["EUR"] 5 "2024-03-15" "T" 0
        0).supported_currencies).count "EUR" = 2 := by
  exact ⟨rfl, rfl⟩

/-- C8 (amended): every generated metadata document copies the dataset's own
record counter into `total_records` (never recomputed), and its
`supported_currencies` is the base currency prepended unconditionally to the
currency list — length `len(currencyList) + 1` always; the base currency
appears exactly once provided it is not itself in the currency list (as with
the fixed allow-list), but is duplicated when it is. -/
theorem metadata_consistency (currencies : List String) (tr : ℕ)
    (ld now : String) (fs ls : ℕ) (targets : List String) (d : UCD.DataFile)
    (d2 : UAD.DataFile) (today now2 : String) (fs2 ls2 : ℕ) :
    (BCP.metadata_json currencies tr ld now fs ls).total_records = tr ∧
    (BCP.metadata_json currencies tr ld now fs ls).supported_currencies
        = "EUR" :: currencies ∧
    (BCP.metadata_json currencies tr ld now fs ls).supported_currencies.length
        = currencies.length + 1 ∧
    ("EUR" ∉ currencies →
      ((BCP.metadata_json currencies tr ld now fs
          ls).supported_currencies).count "EUR" = 1) ∧
    (UCD.metadata_json targets d today now2 fs2 ls2).total_records
        = d.metadata.total_records ∧
    (UCD.metadata_json targets d today now2 fs2 ls2).supported_currencies
        = "EUR" :: targets ∧
    (UCD.metadata_json targets d today now2 fs2 ls2).supported_currencies.length
        = targets.length + 1 ∧
    (UAD.metadata_json targets d2 today now2 fs2 ls2).total_records
        = d2.metadata.total_records ∧
    (UAD.metadata_json targets d2 today now2 fs2 ls2).supported_currencies.length
        = targets.length + 1 ∧
    ((UCD.metadata_json TARGET_CURRENCIES d today now2 fs2
        ls2).supported_currencies).count "EUR" = 1 := by
  refine ⟨rfl, rfl, by simp [BCP.metadata_json], ?_, rfl, rfl,
    by simp [UCD.metadata_json], rfl, by simp [UAD.metadata_json], by rfl⟩
  intro h
  simp [BCP.metadata_json, List.count_cons, List.count_eq_zero.mpr h]

/-- C8 witness: the amended claim at a concrete input whose currency list
does not contain the base currency. -/
theorem metadata_consistency_witness :
    (BCP.metadata_json ["USD", "GBP"] 7 "2024-03-15" "T" 0 0).total_records
        = 7 ∧
    ((BCP.metadata_json ["USD", "GBP"] 7 "2024-03-15" "T" 0
        0).supported_currencies).count "EUR" = 1 := by
  have h := metadata_consistency ["USD", "GBP"] 7 "2024-03-15" "T" 0 0
    ["USD"] (UCD.load_existing_data ["USD"] none "T" "2024-03-15")
    (UAD.load_existing_data ["USD"] none "T") "2024-03-15" "T" 0 0
  exact ⟨h.1, h.2.2.2.1 (by decide)⟩

/-- C9: merging rates for a given date modifies only the single slot
`byYear[year][dayKey]` and the rewritten metadata fields: every other year
bucket, and every other day slot within the merge year, holds exactly the
row it held before, and the currency list, base currency, data source (and,
in the first script, `earliest_date`) are unchanged — in both schema
variants. -/
theorem merge_frame (targets : List String) (rates : DictA ℚ)
    (d : UCD.DataFile) (d2 : UAD.DataFile) (today current_year nowIso : String) :
    (∀ y : String, y ≠ current_year →
      lookupA y (UCD.merge_daily_rates targets d rates today current_year
          nowIso).rates_by_year
        = lookupA y d.rates_by_year) ∧
    (∀ k : String, k ≠ today.drop 5 →
      dayRow (UCD.merge_daily_rates targets d rates today current_year
          nowIso).rates_by_year current_year k
        = dayRow d.rates_by_year current_year k) ∧
    (UCD.merge_daily_rates targets d rates today current_year nowIso).currencies
        = d.currencies ∧
    (UCD.merge_daily_rates targets d rates today current_year
        nowIso).metadata.base_currency = d.metadata.base_currency ∧
    (UCD.merge_daily_rates targets d rates today current_year
        nowIso).metadata.currencies = d.metadata.currencies ∧
    (UCD.merge_daily_rates targets d rates today current_year
        nowIso).metadata.data_source = d.metadata.data_source ∧
    (UCD.merge_daily_rates targets d rates today current_year
        nowIso).metadata.earliest_date = d.metadata.earliest_date ∧
    (∀ y : String, y ≠ current_year →
      lookupA y (UAD.merge_daily_rates targets d2 rates today current_year
          nowIso).data
        = lookupA y d2.data) ∧
    (∀ k : String, k ≠ today →
      dayRow (UAD.merge_daily_rates targets d2 rates today current_year
          nowIso).data current_year k
        = dayRow d2.data current_year k) ∧
    (UAD.merge_daily_rates targets d2 rates today current_year
        nowIso).metadata.base_currency = d2.metadata.base_currency ∧
    (UAD.merge_daily_rates targets d2 rates today current_year
        nowIso).metadata.currencies = d2.metadata.currencies ∧
    (UAD.merge_daily_rates targets d2 rates today current_year
        nowIso).metadata.data_source = d2.metadata.data_source := by
  refine ⟨?_, ?_, rfl, rfl, rfl, rfl, rfl, ?_, ?_, rfl, rfl, rfl⟩
  · intro y hy
    rw [ucd_merge_daily_rates_eq]
    exact lookupA_bucketAssign_ne _ _ _ _ hy
  · intro k hk
    rw [ucd_merge_daily_rates_eq]
    exact dayRow_bucketAssign_ne _ _ _ _ hk
  · intro y hy
    rw [uad_merge_daily_rates_eq]
    exact lookupA_bucketAssign_ne _ _ _ _ hy
  · intro k hk
    rw [uad_merge_daily_rates_eq]
    exact dayRow_bucketAssign_ne _ _ _ _ hk

/-- C9 witness: the frame theorem at a concrete dataset — an unrelated year
(`2023`) and an unrelated day of the merge year (`03-14`) are untouched by
a merge for `2024-03-15`. -/
theorem merge_frame_witness :
    lookupA "2023" (UCD.merge_daily_rates ["USD"]
        (UCD.load_existing_data ["USD"] none "T" "2024-03-15")
        [("USD", (1 : ℚ))] "2024-03-15" "2024" "T").rates_by_year
      = lookupA "2023"
          (UCD.load_existing_data ["USD"] none "T" "2024-03-15").rates_by_year ∧
    dayRow (UCD.merge_daily_rates ["USD"]
        (UCD.load_existing_data ["USD"] none "T" "2024-03-15")
        [("USD", (1 : ℚ))] "2024-03-15" "2024" "T").rates_by_year "2024" "03-14"
      = dayRow (UCD.load_existing_data ["USD"] none "T"
          "2024-03-15").rates_by_year "2024" "03-14" := by
  have h := merge_frame ["USD"] [("USD", (1 : ℚ))]
    (UCD.load_existing_data ["USD"] none "T" "2024-03-15")
    (UAD.load_existing_data ["USD"] none "T") "2024-03-15" "2024" "T"
  exact ⟨h.1 "2023" (by decide), h.2.1 "03-14" (by decide)⟩

/-- The bootstrap's name-keyed rebuild of the empty row is empty. -/
theorem latest_rates_of_nil (currencies : List String) :
    BCP.latest_rates_of currencies ([] : Row) = [] := by
  unfold BCP.latest_rates_of
  exact List.filterMap_eq_nil_iff.mpr (fun p _ => dif_neg (by simp))

/-- C10: the bootstrap's snapshot derivation is guarded against rows shorter
than the currency list: appending null padding to a row never changes the
result (so positions beyond a short row's end behave exactly like stored
null holes and are omitted), and an all-null row yields the empty mapping —
the derivation is total for rows of any length. -/
theorem short_row_guard (currencies : List String) (row : Row) (n : ℕ) :
    BCP.latest_rates_of currencies (row ++ List.replicate n none)
      = BCP.latest_rates_of currencies row ∧
    BCP.latest_rates_of currencies (List.replicate n (none : Option ℚ)) = [] := by
  have hpad : ∀ (arr : Row) (m : ℕ),
      BCP.latest_rates_of currencies (arr ++ List.replicate m none)
        = BCP.latest_rates_of currencies arr := by
    intro arr m
    unfold BCP.latest_rates_of
    apply List.filterMap_congr
    intro p _
    obtain ⟨i, c⟩ := p
    by_cases hr : i < arr.length
    · have hr2 : i < (arr ++ List.replicate m (none : Option ℚ)).length := by
        simp only [List.length_append, List.length_replicate]
        omega
      rw [dif_pos hr2, dif_pos hr, List.get_append i hr]
    · by_cases hr2 : i < arr.length + m
      · have hr2a : i < (arr ++ List.replicate m (none : Option ℚ)).length := by
          simp only [List.length_append, List.length_replicate]
          omega
        rw [dif_pos hr2a, dif_neg hr]
        have hget : (arr ++ List.replicate m (none : Option ℚ)).get ⟨i, hr2a⟩
            = none := by
          rw [List.get_eq_getElem, List.getElem_append_right (le_of_not_lt hr)]
          simp
        rw [hget]
      · have hr2a : ¬ i < (arr ++ List.replicate m (none : Option ℚ)).length := by
          simp only [List.length_append, List.length_replicate]
          omega
        rw [dif_neg hr2a, dif_neg hr]
  refine ⟨hpad row n, ?_⟩
  have h0 := hpad [] n
  simpa [latest_rates_of_nil] using h0

end CurrencyPages
